import Mathlib

/-!
Shallow embedding of the index calculation engine of the
pokemon-market-indexes-v2 repository.

The embedding covers the functions of `scripts/calculate_index.py`,
`scripts/utils.py` and the constants of `config/settings.py` that the
verified properties refer to: the smart liquidity scorer, the constituent
selection pipeline (liquidity threshold, 30-day volume filter, ranking sort,
truncation), the weight calculation and the Laspeyres chain-link step.

Conventions of the embedding:
- Python floats become exact rationals (`ℚ`); Python's `round(x, 4)`
  (round half to even) becomes `round4`.
- Database reads become explicit arguments: the per-card 7-day and 30-day
  volume rows become functions from card ids to row lists (`MarketDb`), the
  index-value and constituent tables become the fields of `IndexDb`, and the
  price lookup of `get_prices_for_date` becomes a function `String → Option ℚ`.
- Listing counts and per-condition sales volumes are natural numbers, as the
  corresponding database columns are counts.
- Python's `list.sort(key=..., reverse=True)` is a stable descending sort;
  it is modelled by `List.insertionSort` with the total preorder `rankGe`,
  which is stable in the same sense, hence produces the same list.
- `select_constituents` is modelled on its rebalancing path, where `client`
  and `price_date` are supplied (the only path `main` uses for selection).
-/

/-- `CONDITION_WEIGHTS` from `config/settings.py` as a lookup by condition
name; every `.get(name, default)` in the sources uses a default equal to the
dictionary entry, so the lookup returns the dictionary values. -/
def CONDITION_WEIGHTS (condition : String) : ℚ :=
  if condition = "Near Mint" then 1
  else if condition = "Lightly Played" then 4/5
  else if condition = "Moderately Played" then 3/5
  else if condition = "Heavily Played" then 2/5
  else if condition = "Damaged" then 1/5
  else 0

/-- `LIQUIDITY_CAP` from `config/settings.py`: 50 weighted listings give the
maximal listings score. -/
def LIQUIDITY_CAP : ℚ := 50

/-- `VOLUME_CAP` from `config/settings.py`: 10 weighted sales per day give the
maximal volume score. -/
def VOLUME_CAP : ℚ := 10

/-- `MIN_AVG_VOLUME_30D` from `config/settings.py`. -/
def MIN_AVG_VOLUME_30D : ℚ := 1/2

/-- Volume weight of the 50/30/20 liquidity formula. In
`calculate_liquidity_smart` this is the `.get("volume", 0.50)` lookup, whose
default coincides with the `LIQUIDITY_WEIGHTS` entry in settings. -/
def W_VOL : ℚ := 1/2

/-- Listings weight of the 50/30/20 liquidity formula (default 0.30). -/
def W_LIST : ℚ := 3/10

/-- Consistency weight of the 50/30/20 liquidity formula (default 0.20). -/
def W_CONS : ℚ := 1/5

/-- One `card_prices_daily` row's per-condition sales volumes, as selected by
`calculate_liquidity_smart` and `get_volume_stats_30d` in `scripts/utils.py`. -/
structure VolRow where
  nm_volume : ℕ
  lp_volume : ℕ
  mp_volume : ℕ
  hp_volume : ℕ
  dmg_volume : ℕ
deriving DecidableEq

/-- The condition-weighted sales volume of one day's row, computed identically
in `calculate_liquidity_smart` and `get_volume_stats_30d`. -/
def weightedVolume (r : VolRow) : ℚ :=
  r.nm_volume * CONDITION_WEIGHTS ("Near Mint")
    + r.lp_volume * CONDITION_WEIGHTS ("Lightly Played")
    + r.mp_volume * CONDITION_WEIGHTS ("Moderately Played")
    + r.hp_volume * CONDITION_WEIGHTS ("Heavily Played")
    + r.dmg_volume * CONDITION_WEIGHTS ("Damaged")

/-- The condition-weighted count of current listings, as computed in
`calculate_liquidity_from_listings` and `calculate_liquidity_smart`. -/
def weightedListings (nm_listings lp_listings mp_listings hp_listings dmg_listings : ℕ) : ℚ :=
  nm_listings * CONDITION_WEIGHTS ("Near Mint")
    + lp_listings * CONDITION_WEIGHTS ("Lightly Played")
    + mp_listings * CONDITION_WEIGHTS ("Moderately Played")
    + hp_listings * CONDITION_WEIGHTS ("Heavily Played")
    + dmg_listings * CONDITION_WEIGHTS ("Damaged")

/-- Round half to even, the rounding mode of Python's built-in `round`;
`q - ⌊q⌋` is the fractional part. -/
def roundHalfEven (q : ℚ) : ℤ :=
  if q - ⌊q⌋ < 1/2 then ⌊q⌋
  else if 1/2 < q - ⌊q⌋ then ⌊q⌋ + 1
  else if ⌊q⌋ % 2 = 0 then ⌊q⌋ else ⌊q⌋ + 1

/-- Python's `round(x, 4)`. -/
def round4 (q : ℚ) : ℚ := (roundHalfEven (q * 10000) : ℚ) / 10000

/-- `calculate_liquidity_from_listings` from `scripts/utils.py` (Method B). -/
def calculate_liquidity_from_listings
    (nm_listings lp_listings mp_listings hp_listings dmg_listings : ℕ) : ℚ :=
  min (weightedListings nm_listings lp_listings mp_listings hp_listings dmg_listings
        / LIQUIDITY_CAP) 1

/-- `calculate_liquidity_smart` from `scripts/utils.py`. The database query
for the trailing 7-day volume rows is modelled by the explicit `window`
argument (the query's `response.data`); an empty `window` models both the
no-rows case and the exception fallback, which take the same `listings_only`
branch. Returns the pair (score, method). -/
def calculate_liquidity_smart
    (nm_listings lp_listings mp_listings hp_listings dmg_listings : ℕ)
    (window : List VolRow) : ℚ × String :=
  let listings_score :=
    min (weightedListings nm_listings lp_listings mp_listings hp_listings dmg_listings
          / LIQUIDITY_CAP) 1
  if window.isEmpty then
    (round4 (W_LIST * listings_score), "listings_only")
  else
    let days_in_period : ℚ := window.length
    let total_weighted_volume := (window.map weightedVolume).sum
    let days_with_volume : ℚ := (window.filter (fun r => decide (0 < weightedVolume r))).length
    let avg_daily_volume := total_weighted_volume / days_in_period
    let volume_score := min (avg_daily_volume / VOLUME_CAP) 1
    let consistency_score := days_with_volume / days_in_period
    (round4 (W_VOL * volume_score + W_LIST * listings_score + W_CONS * consistency_score),
      "combined")




/-- A card row as assembled by `get_cards_with_prices` in
`scripts/calculate_index.py`, together with the fields that
`select_constituents` fills in (`liquidity_score`, `liquidity_method`,
`ranking_score`, `avg_volume_30d`) and that `calculate_weights` fills in
(`weight`). `price` is the Near Mint reference price, positive by the loading
filter. `release_date` (a day number, ingested by `fetch_cards.py` from the
`cards` table) is carried along; no selection function reads it. -/
structure CardRow where
  card_id : String
  rarity : String
  price : ℚ
  liquidity_score : ℚ := 0
  liquidity_method : String := ""
  ranking_score : ℚ := 0
  avg_volume_30d : ℚ := 0
  weight : ℚ := 0
  nm_listings : ℕ := 0
  lp_listings : ℕ := 0
  mp_listings : ℕ := 0
  hp_listings : ℕ := 0
  dmg_listings : ℕ := 0
  release_date : ℤ := 0
deriving DecidableEq

/-- One entry of `INDEX_CONFIG` from `config/settings.py`. None of the three
configured indexes defines a `liquidity_threshold_entry` key, hence the
`Option` with default `none`. -/
structure IndexCfg where
  size : Option ℕ
  min_rarity : String
  maturity_days : ℕ
  liquidity_threshold_entry : Option ℚ := none
deriving DecidableEq

/-- The `RARE_100` entry of `INDEX_CONFIG`. -/
def RARE_100_config : IndexCfg :=
  { size := some 100, min_rarity := "Rare", maturity_days := 30 }

/-- The `RARE_500` entry of `INDEX_CONFIG`. -/
def RARE_500_config : IndexCfg :=
  { size := some 500, min_rarity := "Rare", maturity_days := 30 }

/-- The `RARE_ALL` entry of `INDEX_CONFIG`. -/
def RARE_ALL_config : IndexCfg :=
  { size := none, min_rarity := "Rare", maturity_days := 30 }

/-- `RARE_RARITIES` from `config/settings.py`. -/
def RARE_RARITIES : List String :=
  ["Rare", "Holo Rare", "Shiny Holo Rare", "Ultra Rare", "Secret Rare", "Hyper Rare",
   "Mega Hyper Rare", "Illustration Rare", "Special Illustration Rare", "Double Rare",
   "Shiny Rare", "Shiny Ultra Rare", "Amazing Rare", "Radiant Rare", "Prism Rare",
   "ACE SPEC Rare", "Rare BREAK", "Rare Ace", "Black White Rare", "Promo",
   "Classic Collection"]

/-- `OUTLIER_RULES["min_price"]` from `config/settings.py`. -/
def OUTLIER_MIN_PRICE : ℚ := 1/10

/-- `OUTLIER_RULES["max_price"]` from `config/settings.py`. -/
def OUTLIER_MAX_PRICE : ℚ := 100000

/-- `filter_rare_cards` from `scripts/calculate_index.py`. -/
def filter_rare_cards (cards : List CardRow) : List CardRow :=
  cards.filter (fun c => decide (c.rarity ∈ RARE_RARITIES))

/-- `filter_outliers` from `scripts/calculate_index.py`. -/
def filter_outliers (cards : List CardRow) : List CardRow :=
  cards.filter (fun c => decide (OUTLIER_MIN_PRICE ≤ c.price ∧ c.price ≤ OUTLIER_MAX_PRICE))

/-- `calculate_ranking_score` from `scripts/calculate_index.py`:
price times liquidity score. -/
def calculate_ranking_score (c : CardRow) : ℚ := c.price * c.liquidity_score

/-- The per-card slice of the `card_prices_daily` table that the selection
pipeline reads: the trailing 7-day volume rows (used by
`calculate_liquidity_smart`) and the 30-day lookback volume rows (used by
`get_avg_volume_30d`), both keyed by card id. -/
structure MarketDb where
  volumeWindow7 : String → List VolRow
  volumeWindow30 : String → List VolRow

/-- `get_avg_volume_30d` from `scripts/utils.py`, which returns the
`avg_volume` field of `get_volume_stats_30d`: the positive condition-weighted
volumes of the rows in the 30-day lookback are summed and divided by the
fixed divisor `AVG_DIVISOR = 30`. -/
def get_avg_volume_30d (db : MarketDb) (card_id : String) : ℚ :=
  (((db.volumeWindow30 card_id).map weightedVolume).filter (fun w => decide (0 < w))).sum / 30

/-- The per-card mutation at the top of `select_constituents`: recompute the
liquidity score and method with `calculate_liquidity_smart`, then the ranking
score with `calculate_ranking_score`. -/
def scoreCard (db : MarketDb) (c : CardRow) : CardRow :=
  let sm := calculate_liquidity_smart c.nm_listings c.lp_listings c.mp_listings c.hp_listings
    c.dmg_listings (db.volumeWindow7 c.card_id)
  let c1 := { c with liquidity_score := sm.1, liquidity_method := sm.2 }
  { c1 with ranking_score := calculate_ranking_score c1 }

/-- The liquidity threshold applied by `select_constituents`:
`config.get("liquidity_threshold_entry", 0.40)`. -/
def liquidityThreshold (cfg : IndexCfg) : ℚ := cfg.liquidity_threshold_entry.getD (2/5)

/-- The liquidity filter step of `select_constituents`: keep the scored cards
whose recomputed liquidity score reaches the threshold. -/
def liquidityEligible (db : MarketDb) (cards : List CardRow) (cfg : IndexCfg) : List CardRow :=
  (cards.map (scoreCard db)).filter (fun c => decide (liquidityThreshold cfg ≤ c.liquidity_score))

/-- The keep-condition of the Method-D volume filter in `select_constituents`:
a card with `0 < avg_volume_30d < MIN_AVG_VOLUME_30D` survives only when its
liquidity method is the string `"listings_fallback"`; all other cards are
kept. -/
def methodDKeeps (c : CardRow) : Bool :=
  if 0 < c.avg_volume_30d ∧ c.avg_volume_30d < MIN_AVG_VOLUME_30D then
    c.liquidity_method == "listings_fallback"
  else true

/-- The Method-D volume filter step of `select_constituents`: store each
card's 30-day average volume, then filter by `methodDKeeps`. -/
def volumeEligible (db : MarketDb) (cards : List CardRow) (cfg : IndexCfg) : List CardRow :=
  ((liquidityEligible db cards cfg).map
      (fun c => { c with avg_volume_30d := get_avg_volume_30d db c.card_id })).filter
    methodDKeeps

/-- The descending comparison used by the ranking sort: `a` may come before
`b` when `b`'s ranking score is at most `a`'s. -/
def rankGe (a b : CardRow) : Prop := b.ranking_score ≤ a.ranking_score

instance : DecidableRel rankGe :=
  fun a b => inferInstanceAs (Decidable (b.ranking_score ≤ a.ranking_score))

instance : IsTotal CardRow rankGe := ⟨fun a b => le_total b.ranking_score a.ranking_score⟩

instance : IsTrans CardRow rankGe := ⟨fun _ _ _ h1 h2 => le_trans h2 h1⟩

/-- The sort step of `select_constituents`:
`eligible.sort(key=lambda x: x.get("ranking_score", 0), reverse=True)`.
Python's sort is stable, so ties keep their relative input order; a stable
sort with respect to a total preorder is unique, so `List.insertionSort`
computes the same list. -/
def rankedCards (db : MarketDb) (cards : List CardRow) (cfg : IndexCfg) : List CardRow :=
  List.insertionSort rankGe (volumeEligible db cards cfg)

/-- `select_constituents` from `scripts/calculate_index.py`, on its
rebalancing path (with `client` and `price_date` supplied): recompute
liquidity, filter by the liquidity threshold, apply the Method-D volume
filter, sort by ranking score descending, keep the top `size` cards (or all
of them when `size` is `None`). -/
def select_constituents (db : MarketDb) (cards : List CardRow) (cfg : IndexCfg) : List CardRow :=
  match cfg.size with
  | some n => (rankedCards db cards cfg).take n
  | none => rankedCards db cards cfg

/-- The selection pipeline as run by `main` in `scripts/calculate_index.py`:
rarity filter and outlier filter on the loaded cards, then
`select_constituents`. -/
def selection_pipeline (db : MarketDb) (cards : List CardRow) (cfg : IndexCfg) : List CardRow :=
  select_constituents db (filter_outliers (filter_rare_cards cards)) cfg

/-- `calculate_weights` from `scripts/calculate_index.py`: price-proportional
weights, with an equal-weight fallback when the prices sum to zero. -/
def calculate_weights (constituents : List CardRow) : List CardRow :=
  let total_price := (constituents.map CardRow.price).sum
  if total_price = 0 then
    let equal_weight : ℚ := if constituents.isEmpty then 0 else 1 / (constituents.length : ℚ)
    constituents.map (fun c => { c with weight := equal_weight })
  else
    constituents.map (fun c => { c with weight := c.price / total_price })

/-- Modelled from the spec for comparison (claim C1): the liquidity-adjusted
value `reference_price × max(liquidity_score, 0.1)` of spec section 4.3. The
code's `calculate_weights` does not use any such adjustment. -/
def spec_adjusted_value (c : CardRow) : ℚ := c.price * max c.liquidity_score (1/10)

/-- One row of the `constituents_monthly` table as read back by
`get_previous_index_data`: item id, weight and composite price. -/
structure PrevConstituent where
  card_id : String
  weight : ℚ
  price : ℚ
deriving DecidableEq

/-- The accumulation loop of `calculate_index_laspeyres`: summed numerator
`Σ weight·current_price`, summed denominator `Σ weight·prior_price` and the
matched count, over the prior constituents that have a current price and a
positive prior price. -/
def laspeyresSums : List PrevConstituent → (String → Option ℚ) → ℚ × ℚ × ℕ
  | [], _ => (0, 0, 0)
  | pc :: rest, current_prices =>
    let s := laspeyresSums rest current_prices
    match current_prices pc.card_id with
    | some current_price =>
      if 0 < pc.price then
        (s.1 + pc.weight * current_price, s.2.1 + pc.weight * pc.price, s.2.2 + 1)
      else s
    | none => s

/-- The Laspeyres ratio `numerator / denominator` of
`calculate_index_laspeyres`. -/
def laspeyresRatio (prev : List PrevConstituent) (current_prices : String → Option ℚ) : ℚ :=
  (laspeyresSums prev current_prices).1 / (laspeyresSums prev current_prices).2.1

/-- The value computation of `calculate_index_laspeyres` after the previous
data has been loaded and the same-date check has passed: branch on the
denominator and the matched count, returning the rounded value and the method
tag. -/
def calculate_index_from_prev (prev_value : ℚ) (prev_constituents : List PrevConstituent)
    (current_prices : String → Option ℚ) : ℚ × String :=
  let s := laspeyresSums prev_constituents current_prices
  let numerator := s.1
  let denominator := s.2.1
  let matched_count := s.2.2
  if denominator = 0 ∨ (matched_count : ℚ) < (prev_constituents.length : ℚ) * (1/2) then
    if 0 < matched_count then
      let ratio := if 0 < denominator then numerator / denominator else 1
      (round4 (prev_value * ratio), "laspeyres_partial")
    else
      (prev_value, "fallback")
  else
    (round4 (prev_value * (numerator / denominator)), "laspeyres")

/-- The database state read by `calculate_index_laspeyres`: the latest
`index_values_weekly` row (value and date, or absent), the
`constituents_monthly` rows of the current and of the previous month, and the
current-day price lookup of `get_prices_for_date`. -/
structure IndexDb where
  latest_value : Option (ℚ × String)
  constituents_current_month : List PrevConstituent
  constituents_previous_month : List PrevConstituent
  current_prices : String → Option ℚ

/-- The previous-period data returned by `get_previous_index_data` in
`scripts/calculate_index.py`. -/
structure PrevIndexData where
  value : ℚ
  date : String
  constituents : List PrevConstituent

/-- `get_previous_index_data` from `scripts/calculate_index.py`: `None` when
no index value exists yet; otherwise the latest value and date together with
the current month's constituents, falling back to the previous month's when
the current month has none (possibly still the empty list). -/
def get_previous_index_data (db : IndexDb) : Option PrevIndexData :=
  match db.latest_value with
  | none => none
  | some (v, d) =>
    some { value := v, date := d,
           constituents :=
             if db.constituents_current_month.isEmpty then db.constituents_previous_month
             else db.constituents_current_month }

/-- `calculate_index_laspeyres` from `scripts/calculate_index.py`: base 100
when there is no previous data or no constituent snapshot, the unchanged
value on the same date, and otherwise the chain-linked value. -/
def calculate_index_laspeyres (db : IndexDb) (current_date : String) : ℚ × String :=
  match get_previous_index_data db with
  | none => (100, "base")
  | some prev_data =>
    if prev_data.constituents.isEmpty then (100, "base")
    else if prev_data.date = current_date then (prev_data.value, "same_date")
    else calculate_index_from_prev prev_data.value prev_data.constituents db.current_prices

/-! Concrete instances used by the closed theorems below. -/

/-- A day's volume row with 10 Near Mint sales (condition-weighted volume 10,
the volume cap). -/
def activeRow : VolRow := ⟨10, 0, 0, 0, 0⟩

/-- A day's volume row with a single Near Mint sale (condition-weighted
volume 1). -/
def lightRow : VolRow := ⟨1, 0, 0, 0, 0⟩

/-- A day's volume row with no sales in any condition. -/
def zeroRow : VolRow := ⟨0, 0, 0, 0, 0⟩

/-- A market database giving every card a fully liquid profile: seven days at
the volume cap and a 30-day average volume of 1. -/
def liquidDb : MarketDb :=
  ⟨fun _ => List.replicate 7 activeRow, fun _ => List.replicate 15 ⟨2, 0, 0, 0, 0⟩⟩

/-- A market database giving every card a thin profile: seven days with one
sale each (smart score 1/4) and a 30-day average volume of 1. -/
def lowVolumeDb : MarketDb :=
  ⟨fun _ => List.replicate 7 lightRow, fun _ => List.replicate 15 ⟨2, 0, 0, 0, 0⟩⟩

/-- A constituent with full liquidity, for the weight-formula comparison. -/
def cFullLiquidity : CardRow :=
  { card_id := "A", rarity := "Rare", price := 1, liquidity_score := 1 }

/-- A constituent with zero liquidity, for the weight-formula comparison. -/
def cZeroLiquidity : CardRow :=
  { card_id := "B", rarity := "Rare", price := 1, liquidity_score := 0 }

/-- A candidate card with item id `"a"`, tied with `tieCardB` on every field
that enters the ranking score. -/
def tieCardA : CardRow := { card_id := "a", rarity := "Rare", price := 10, nm_listings := 50 }

/-- A candidate card with item id `"b"`, tied with `tieCardA` on every field
that enters the ranking score. -/
def tieCardB : CardRow := { card_id := "b", rarity := "Rare", price := 10, nm_listings := 50 }

/-- `tieCardA` as it leaves the scoring, threshold and Method-D steps under
`liquidDb`: smart score 1 with method `combined`, ranking score 10, stored
30-day average volume 1. -/
def scoredTieA : CardRow :=
  { card_id := "a", rarity := "Rare", price := 10, liquidity_score := 1,
    liquidity_method := "combined", ranking_score := 10, avg_volume_30d := 1,
    nm_listings := 50 }

/-- `tieCardB` as it leaves the scoring, threshold and Method-D steps under
`liquidDb`. -/
def scoredTieB : CardRow :=
  { card_id := "b", rarity := "Rare", price := 10, liquidity_score := 1,
    liquidity_method := "combined", ranking_score := 10, avg_volume_30d := 1,
    nm_listings := 50 }

/-- The day number of the run date used in the maturity theorem. -/
def as_of_day : ℤ := 20000

/-- A card released on the run date itself (`release_date = as_of_day`),
otherwise fully eligible: rarity `Rare`, in-bounds price, full liquidity
under `liquidDb`. -/
def fresh_card : CardRow :=
  { card_id := "fresh", rarity := "Rare", price := 10, nm_listings := 50,
    release_date := 20000 }

/-- A candidate card whose smart score under `lowVolumeDb` is 1/4 with method
`combined`: it has confirmed trading on all seven days, yet sits below the
default threshold 0.40. -/
def lowLiquidityCard : CardRow := { card_id := "low", rarity := "Rare", price := 10 }

/-- A prior basket of one constituent with weight 1 and prior price 10. -/
def prevBasket : List PrevConstituent := [⟨"a", 1, 10⟩]

/-- Current prices in which the basket's only constituent costs twice its
prior price. -/
def doubledPrices : String → Option ℚ := fun id => if id = "a" then some 20 else none

/-- An index database with a latest value of 105 but no constituent snapshot
in either the current or the previous month. -/
def staleDb : IndexDb :=
  { latest_value := some (105, "2026-01-05"), constituents_current_month := [],
    constituents_previous_month := [], current_prices := fun _ => none }

/-! Helper lemmas shared by several of the claim theorems. -/

theorem roundHalfEven_nonneg {q : ℚ} (h : 0 ≤ q) : 0 ≤ roundHalfEven q := by
  have hf : (0 : ℤ) ≤ ⌊q⌋ := Int.floor_nonneg.mpr h
  unfold roundHalfEven
  split_ifs <;> omega

theorem roundHalfEven_le {q : ℚ} {n : ℤ} (h : q ≤ n) : roundHalfEven q ≤ n := by
  have hfn : ⌊q⌋ ≤ n := by
    have := Int.floor_le_floor h
    simpa using this
  have hstep : ¬(q - ⌊q⌋ < 1/2) → ⌊q⌋ + 1 ≤ n := by
    intro hge
    push_neg at hge
    have h1 : (⌊q⌋ : ℚ) ≤ q - 1/2 := by linarith
    have h2 : (⌊q⌋ : ℚ) < n := by linarith
    have h3 : ⌊q⌋ < n := by exact_mod_cast h2
    omega
  unfold roundHalfEven
  split_ifs with h1 h2 h3
  · exact hfn
  · exact hstep h1
  · exact hfn
  · exact hstep h1

theorem round4_nonneg {q : ℚ} (h : 0 ≤ q) : 0 ≤ round4 q := by
  have := roundHalfEven_nonneg (q := q * 10000) (by positivity)
  unfold round4
  positivity

theorem round4_le_one {q : ℚ} (h : q ≤ 1) : round4 q ≤ 1 := by
  have h1 : q * 10000 ≤ ((10000 : ℤ) : ℚ) := by push_cast; linarith
  have h2 : roundHalfEven (q * 10000) ≤ 10000 := roundHalfEven_le h1
  have h3 : ((roundHalfEven (q * 10000) : ℤ) : ℚ) ≤ 10000 := by exact_mod_cast h2
  unfold round4
  linarith

theorem weightedVolume_nonneg (r : VolRow) : 0 ≤ weightedVolume r := by
  simp only [weightedVolume, CONDITION_WEIGHTS]
  norm_num
  positivity

theorem weightedListings_nonneg (nm lp mp hp dmg : ℕ) : 0 ≤ weightedListings nm lp mp hp dmg := by
  simp only [weightedListings, CONDITION_WEIGHTS]
  norm_num
  positivity

theorem listings_score_bounds (nm lp mp hp dmg : ℕ) :
    0 ≤ min (weightedListings nm lp mp hp dmg / LIQUIDITY_CAP) 1 ∧
      min (weightedListings nm lp mp hp dmg / LIQUIDITY_CAP) 1 ≤ 1 :=
  ⟨le_min (div_nonneg (weightedListings_nonneg nm lp mp hp dmg) (by norm_num [LIQUIDITY_CAP]))
      zero_le_one,
    min_le_right _ _⟩

/-- C8: for every input (any listing counts and any volume window), the score
returned by `calculate_liquidity_smart` lies in the closed interval `[0, 1]`,
and so does the score of `calculate_liquidity_from_listings`. -/
theorem liquidity_score_bounds (nm lp mp hp dmg : ℕ) (window : List VolRow) :
    (0 ≤ (calculate_liquidity_smart nm lp mp hp dmg window).1 ∧
      (calculate_liquidity_smart nm lp mp hp dmg window).1 ≤ 1) ∧
    (0 ≤ calculate_liquidity_from_listings nm lp mp hp dmg ∧
      calculate_liquidity_from_listings nm lp mp hp dmg ≤ 1) := by
  obtain ⟨hls0, hls1⟩ := listings_score_bounds nm lp mp hp dmg
  refine ⟨?_, ?_, ?_⟩
  · unfold calculate_liquidity_smart
    split_ifs with hempty
    · constructor
      · exact round4_nonneg (mul_nonneg (by norm_num [W_LIST]) hls0)
      · refine round4_le_one ?_
        have : W_LIST * min (weightedListings nm lp mp hp dmg / LIQUIDITY_CAP) 1 ≤ W_LIST * 1 :=
          mul_le_mul_of_nonneg_left hls1 (by norm_num [W_LIST])
        norm_num [W_LIST] at this ⊢
        linarith
    · have hlen : 0 < (window.length : ℚ) := by
        have : window ≠ [] := fun hw => by simp [hw] at hempty
        have := List.length_pos.mpr this
        exact_mod_cast this
      have hvs0 : 0 ≤ min ((window.map weightedVolume).sum / (window.length : ℚ) / VOLUME_CAP) 1 := by
        refine le_min ?_ zero_le_one
        have hsum : 0 ≤ (window.map weightedVolume).sum :=
          List.sum_nonneg (by
            intro x hx
            obtain ⟨r, _, rfl⟩ := List.mem_map.mp hx
            exact weightedVolume_nonneg r)
        have : (0 : ℚ) < VOLUME_CAP := by norm_num [VOLUME_CAP]
        positivity
      have hvs1 : min ((window.map weightedVolume).sum / (window.length : ℚ) / VOLUME_CAP) 1 ≤ 1 :=
        min_le_right _ _
      have hcs0 : 0 ≤ ((window.filter (fun r => decide (0 < weightedVolume r))).length : ℚ)
          / (window.length : ℚ) := by positivity
      have hcs1 : ((window.filter (fun r => decide (0 < weightedVolume r))).length : ℚ)
          / (window.length : ℚ) ≤ 1 := by
        rw [div_le_one hlen]
        exact_mod_cast List.length_filter_le _ window
      constructor
      · refine round4_nonneg ?_
        have h1 : (0:ℚ) ≤ W_VOL := by norm_num [W_VOL]
        have h2 : (0:ℚ) ≤ W_LIST := by norm_num [W_LIST]
        have h3 : (0:ℚ) ≤ W_CONS := by norm_num [W_CONS]
        have := mul_nonneg h1 hvs0
        have := mul_nonneg h2 hls0
        have := mul_nonneg h3 hcs0
        linarith
      · refine round4_le_one ?_
        have h1 := mul_le_mul_of_nonneg_left hvs1 (by norm_num [W_VOL] : (0:ℚ) ≤ W_VOL)
        have h2 := mul_le_mul_of_nonneg_left hls1 (by norm_num [W_LIST] : (0:ℚ) ≤ W_LIST)
        have h3 := mul_le_mul_of_nonneg_left hcs1 (by norm_num [W_CONS] : (0:ℚ) ≤ W_CONS)
        norm_num [W_VOL, W_LIST, W_CONS] at h1 h2 h3 ⊢
        linarith
  · exact hls0
  · exact hls1

/-- C7 (counterexample): with a window consisting of one price row whose
condition-weighted volume is zero (no volume signal on any day of the
window), `calculate_liquidity_smart` returns the method tag `combined`, not
`listings_only` as the claim states. -/
theorem zero_volume_window_tagged_combined :
    weightedVolume zeroRow = 0 ∧
    (calculate_liquidity_smart 1 0 0 0 0 [zeroRow]).2 = "combined" ∧
    (calculate_liquidity_smart 1 0 0 0 0 [zeroRow]).2 ≠ "listings_only" := by
  refine ⟨by norm_num [weightedVolume, zeroRow, CONDITION_WEIGHTS], ?_, ?_⟩ <;>
    simp [calculate_liquidity_smart, zeroRow]

/-- C7 (amended): if the window has no price rows at all (or the volume query
fails), the method is `listings_only` with score `0.30 · listings_score`; if
the window has price rows but every day's weighted volume is zero, the score
still equals `0.30 · listings_score` (the volume and consistency terms
contribute zero), but the method tag is `combined`. -/
theorem smart_score_zero_volume_cases (nm lp mp hp dmg : ℕ) (window : List VolRow) :
    (window = [] →
      calculate_liquidity_smart nm lp mp hp dmg window =
        (round4 (W_LIST * min (weightedListings nm lp mp hp dmg / LIQUIDITY_CAP) 1),
          "listings_only")) ∧
    (window ≠ [] → (∀ r ∈ window, weightedVolume r = 0) →
      calculate_liquidity_smart nm lp mp hp dmg window =
        (round4 (W_LIST * min (weightedListings nm lp mp hp dmg / LIQUIDITY_CAP) 1),
          "combined")) := by
  constructor
  · intro hw
    subst hw
    simp [calculate_liquidity_smart]
  · intro hw hz
    have hempty : window.isEmpty = false := by
      cases window with
      | nil => exact absurd rfl hw
      | cons a l => rfl
    have hsum : (window.map weightedVolume).sum = 0 := by
      refine List.sum_eq_zero ?_
      intro x hx
      obtain ⟨r, hr, rfl⟩ := List.mem_map.mp hx
      exact hz r hr
    have hfilter : window.filter (fun r => decide (0 < weightedVolume r)) = [] := by
      refine List.filter_eq_nil_iff.mpr ?_
      intro r hr
      simp [hz r hr]
    simp only [calculate_liquidity_smart, hempty, Bool.false_eq_true, if_false, hsum, hfilter]
    rw [zero_div, zero_div, List.length_nil]
    norm_num

/-- C7 witness: the two zero-volume-signal cases at concrete inputs — an
empty window gives `listings_only`, a window of one zero-volume row gives the
same score under the tag `combined`. -/
theorem smart_score_zero_volume_cases_witness :
    calculate_liquidity_smart 5 0 0 0 0 [] =
      (round4 (W_LIST * min (weightedListings 5 0 0 0 0 / LIQUIDITY_CAP) 1), "listings_only") ∧
    calculate_liquidity_smart 5 0 0 0 0 [zeroRow] =
      (round4 (W_LIST * min (weightedListings 5 0 0 0 0 / LIQUIDITY_CAP) 1), "combined") :=
  ⟨(smart_score_zero_volume_cases 5 0 0 0 0 []).1 rfl,
    (smart_score_zero_volume_cases 5 0 0 0 0 [zeroRow]).2 (by simp)
      (by
        intro r hr
        simp only [List.mem_singleton] at hr
        subst hr
        norm_num [weightedVolume, zeroRow, CONDITION_WEIGHTS])⟩

/-! Weight calculation: helper giving the weights list in both branches. -/

theorem map_weight_calculate_weights (cs : List CardRow) :
    (calculate_weights cs).map CardRow.weight =
      if (cs.map CardRow.price).sum = 0 then
        List.replicate cs.length (if cs.isEmpty then 0 else 1 / (cs.length : ℚ))
      else cs.map (fun c => c.price / (cs.map CardRow.price).sum) := by
  by_cases h : (cs.map CardRow.price).sum = 0
  · rw [if_pos h]
    simp only [calculate_weights, if_pos h, List.map_map]
    exact List.map_const' cs _
  · rw [if_neg h]
    simp only [calculate_weights, if_neg h, List.map_map]
    rfl

/-- C1 (counterexample): on a two-card basket with prices 1 and 1 and
liquidity scores 1 and 0, the code assigns weights 1/2 and 1/2, while the
claimed formula `price · max(liquidity, 0.1) / Σ price · max(liquidity, 0.1)`
would give the first card 10/11 ≠ 1/2. -/
theorem calculate_weights_no_liquidity_floor :
    (calculate_weights [cFullLiquidity, cZeroLiquidity]).map CardRow.weight = [1/2, 1/2] ∧
    spec_adjusted_value cFullLiquidity /
        (spec_adjusted_value cFullLiquidity + spec_adjusted_value cZeroLiquidity) ≠ 1/2 := by
  constructor
  · norm_num [calculate_weights, cFullLiquidity, cZeroLiquidity]
  · norm_num [spec_adjusted_value, cFullLiquidity, cZeroLiquidity, max_def]

/-- C1 (amended): for every non-empty constituent list, `calculate_weights`
assigns `weight_i = price_i / Σ price_j` (no liquidity adjustment), and when
the prices sum to zero every constituent receives the equal weight `1/N`. -/
theorem calculate_weights_price_proportional (cs : List CardRow) (h : cs ≠ []) :
    ((cs.map CardRow.price).sum ≠ 0 →
      (calculate_weights cs).map CardRow.weight =
        cs.map (fun c => c.price / (cs.map CardRow.price).sum)) ∧
    ((cs.map CardRow.price).sum = 0 →
      (calculate_weights cs).map CardRow.weight =
        List.replicate cs.length (1 / (cs.length : ℚ))) := by
  constructor
  · intro ht
    rw [map_weight_calculate_weights, if_neg ht]
  · intro ht
    rw [map_weight_calculate_weights, if_pos ht]
    have : cs.isEmpty = false := by
      cases cs with
      | nil => exact absurd rfl h
      | cons a l => rfl
    rw [this]
    simp

/-- C1 witness: the amended statement applied to the concrete two-card
basket. -/
theorem calculate_weights_price_proportional_witness :
    ([cFullLiquidity, cZeroLiquidity] : List CardRow) ≠ [] ∧
    (calculate_weights [cFullLiquidity, cZeroLiquidity]).map CardRow.weight =
      [cFullLiquidity, cZeroLiquidity].map
        (fun c => c.price / (([cFullLiquidity, cZeroLiquidity] : List CardRow).map
          CardRow.price).sum) :=
  ⟨by simp,
    (calculate_weights_price_proportional [cFullLiquidity, cZeroLiquidity] (by simp)).1
      (by norm_num [cFullLiquidity, cZeroLiquidity])⟩

/-- C3: for every non-empty constituent list whose prices are all strictly
positive, the weights produced by `calculate_weights` sum to 1 within 1e-6
(in exact arithmetic they sum to exactly 1). -/
theorem calculate_weights_sum_one (cs : List CardRow) (h : cs ≠ [])
    (hpos : ∀ c ∈ cs, 0 < c.price) :
    |((calculate_weights cs).map CardRow.weight).sum - 1| ≤ 1/1000000 := by
  have htot : 0 < (cs.map CardRow.price).sum := by
    refine List.sum_pos _ ?_ (by simpa using h)
    intro x hx
    obtain ⟨c, hc, rfl⟩ := List.mem_map.mp hx
    exact hpos c hc
  have hsum : ((calculate_weights cs).map CardRow.weight).sum = 1 := by
    rw [map_weight_calculate_weights, if_neg (ne_of_gt htot)]
    have hdiv : (cs.map (fun c => c.price / (cs.map CardRow.price).sum)).sum
        = (cs.map CardRow.price).sum / (cs.map CardRow.price).sum := by
      simp only [div_eq_mul_inv]
      rw [← List.sum_map_mul_right]
    rw [hdiv, div_self (ne_of_gt htot)]
  rw [hsum]
  norm_num

/-- C3 witness: the invariant at a concrete two-card basket with positive
prices. -/
theorem calculate_weights_sum_one_witness :
    ([cFullLiquidity, cZeroLiquidity] : List CardRow) ≠ [] ∧
    (∀ c ∈ ([cFullLiquidity, cZeroLiquidity] : List CardRow), 0 < c.price) ∧
    |((calculate_weights [cFullLiquidity, cZeroLiquidity]).map CardRow.weight).sum - 1|
      ≤ 1/1000000 :=
  ⟨by simp, by
      intro c hc
      simp only [List.mem_cons, List.mem_singleton, List.not_mem_nil, or_false] at hc
      rcases hc with rfl | rfl <;> norm_num [cFullLiquidity, cZeroLiquidity],
    calculate_weights_sum_one [cFullLiquidity, cZeroLiquidity] (by simp)
      (by
        intro c hc
        simp only [List.mem_cons, List.mem_singleton, List.not_mem_nil, or_false] at hc
        rcases hc with rfl | rfl <;> norm_num [cFullLiquidity, cZeroLiquidity])⟩

/-! Laspeyres chain-link lemmas. -/

theorem laspeyresSums_num_eq_mul {k : ℚ} {cur : String → Option ℚ}
    {prev : List PrevConstituent}
    (hcur : ∀ pc ∈ prev, cur pc.card_id = some (k * pc.price)) :
    (laspeyresSums prev cur).1 = k * (laspeyresSums prev cur).2.1 := by
  induction prev with
  | nil => simp [laspeyresSums]
  | cons pc rest ih =>
    have h1 : cur pc.card_id = some (k * pc.price) := hcur pc (List.mem_cons_self pc rest)
    have h2 := ih (fun x hx => hcur x (List.mem_cons_of_mem _ hx))
    simp only [laspeyresSums, h1]
    split_ifs with hp
    · simp only
      rw [h2]
      ring
    · exact h2

theorem laspeyresSums_den_eq_zero_of_matched_eq_zero {cur : String → Option ℚ} :
    ∀ {prev : List PrevConstituent}, (laspeyresSums prev cur).2.2 = 0 →
      (laspeyresSums prev cur).2.1 = 0 := by
  intro prev
  induction prev with
  | nil => intro _; simp [laspeyresSums]
  | cons pc rest ih =>
    intro hm
    simp only [laspeyresSums] at hm ⊢
    revert hm
    cases cur pc.card_id with
    | none => exact ih
    | some p =>
      simp only
      split_ifs with hp
      · intro hm
        simp only at hm
        omega
      · exact ih

/-- C4: if every prior constituent's current-day price is `k` times its prior
price and the Laspeyres denominator is positive, then the Laspeyres ratio
equals `k` and the value returned by the chain-link step is the prior value
times `k` (then rounded to 4 decimals). -/
theorem laspeyres_scale_invariance (prev_value k : ℚ) (prev : List PrevConstituent)
    (cur : String → Option ℚ) (_hk : 0 < k)
    (hcur : ∀ pc ∈ prev, cur pc.card_id = some (k * pc.price))
    (hden : 0 < (laspeyresSums prev cur).2.1) :
    laspeyresRatio prev cur = k ∧
    (calculate_index_from_prev prev_value prev cur).1 = round4 (prev_value * k) := by
  have hnum := laspeyresSums_num_eq_mul hcur
  have hd : (laspeyresSums prev cur).2.1 ≠ 0 := ne_of_gt hden
  have hr : laspeyresRatio prev cur = k := by
    rw [laspeyresRatio, hnum, mul_div_assoc, div_self hd, mul_one]
  have hfrac : (laspeyresSums prev cur).1 / (laspeyresSums prev cur).2.1 = k := hr
  refine ⟨hr, ?_⟩
  have hm : (laspeyresSums prev cur).2.2 ≠ 0 := by
    intro h0
    exact hd (laspeyresSums_den_eq_zero_of_matched_eq_zero h0)
  simp only [calculate_index_from_prev]
  rw [if_pos hden, hfrac]
  split_ifs with h1 h2
  · rfl
  · exact absurd (Nat.pos_of_ne_zero hm) h2
  · rfl

/-- C4 witness: the scale-invariance statement at a concrete one-card basket
whose current price is twice its prior price. -/
theorem laspeyres_scale_invariance_witness :
    (0 : ℚ) < 2 ∧
    0 < (laspeyresSums prevBasket doubledPrices).2.1 ∧
    laspeyresRatio prevBasket doubledPrices = 2 ∧
    (calculate_index_from_prev 100 prevBasket doubledPrices).1 = round4 (100 * 2) := by
  have hcur : ∀ pc ∈ prevBasket, doubledPrices pc.card_id = some (2 * pc.price) := by
    intro pc hpc
    simp only [prevBasket, List.mem_singleton] at hpc
    subst hpc
    norm_num [doubledPrices]
  have hden : 0 < (laspeyresSums prevBasket doubledPrices).2.1 := by
    norm_num [laspeyresSums, prevBasket, doubledPrices]
  have := laspeyres_scale_invariance 100 2 prevBasket doubledPrices (by norm_num) hcur hden
  exact ⟨by norm_num, hden, this.1, this.2⟩

/-- C10: when a prior index value exists but neither the current month nor
the previous month has a constituent snapshot, `calculate_index_laspeyres`
returns the base value 100 with method `base` instead of the prior value. -/
theorem no_snapshot_restarts_base (db : IndexDb) (v : ℚ) (d current_date : String)
    (h1 : db.latest_value = some (v, d)) (h2 : db.constituents_current_month = [])
    (h3 : db.constituents_previous_month = []) :
    calculate_index_laspeyres db current_date = (100, "base") := by
  simp [calculate_index_laspeyres, get_previous_index_data, h1, h2, h3]

/-- C10 witness: the restart at a concrete database whose latest value is 105
and whose constituent tables are empty. -/
theorem no_snapshot_restarts_base_witness :
    staleDb.latest_value = some (105, "2026-01-05") ∧
    staleDb.constituents_current_month = [] ∧
    staleDb.constituents_previous_month = [] ∧
    calculate_index_laspeyres staleDb ("2026-01-12") = (100, "base") :=
  ⟨rfl, rfl, rfl,
    no_snapshot_restarts_base staleDb 105 ("2026-01-05") ("2026-01-12") rfl rfl rfl⟩

/-! Selection pipeline lemmas. -/

theorem smart_method_cases (nm lp mp hp dmg : ℕ) (window : List VolRow) :
    (calculate_liquidity_smart nm lp mp hp dmg window).2 = "combined" ∨
    (calculate_liquidity_smart nm lp mp hp dmg window).2 = "listings_only" := by
  unfold calculate_liquidity_smart
  split_ifs <;> simp

theorem mem_volumeEligible_of_mem_select {db : MarketDb} {cards : List CardRow}
    {cfg : IndexCfg} {c : CardRow} (hc : c ∈ select_constituents db cards cfg) :
    c ∈ volumeEligible db cards cfg := by
  have hr : c ∈ rankedCards db cards cfg := by
    rcases hs : cfg.size with _ | n
    · simp only [select_constituents, hs] at hc
      exact hc
    · simp only [select_constituents, hs] at hc
      exact (List.take_sublist n _).subset hc
  rw [rankedCards] at hr
  exact (List.mem_insertionSort rankGe).mp hr

theorem mem_select_structure {db : MarketDb} {cards : List CardRow} {cfg : IndexCfg}
    {c : CardRow} (hc : c ∈ select_constituents db cards cfg) :
    ∃ c1 ∈ cards.map (scoreCard db),
      liquidityThreshold cfg ≤ c1.liquidity_score ∧
      c = { c1 with avg_volume_30d := get_avg_volume_30d db c1.card_id } ∧
      methodDKeeps c = true := by
  have h1 := mem_volumeEligible_of_mem_select hc
  rw [volumeEligible] at h1
  obtain ⟨hmem, hkeep⟩ := List.mem_filter.mp h1
  obtain ⟨c1, hc1, rfl⟩ := List.mem_map.mp hmem
  obtain ⟨hc1m, hth⟩ := List.mem_filter.mp hc1
  exact ⟨c1, hc1m, of_decide_eq_true hth, rfl, hkeep⟩

/-- C9: the liquidity scorer only ever returns the method tags `combined` and
`listings_only`, and consequently every card whose stored 30-day average
volume is strictly positive but below `MIN_AVG_VOLUME_30D` is excluded from
the selected basket: the `listings_fallback` retention branch of the Method-D
filter never fires. -/
theorem methodD_low_volume_excluded :
    (∀ (nm lp mp hp dmg : ℕ) (window : List VolRow),
      (calculate_liquidity_smart nm lp mp hp dmg window).2 = "combined" ∨
      (calculate_liquidity_smart nm lp mp hp dmg window).2 = "listings_only") ∧
    ∀ (db : MarketDb) (cards : List CardRow) (cfg : IndexCfg) (c : CardRow),
      c ∈ select_constituents db cards cfg →
      ¬(0 < c.avg_volume_30d ∧ c.avg_volume_30d < MIN_AVG_VOLUME_30D) := by
  refine ⟨smart_method_cases, ?_⟩
  intro db cards cfg c hc hbad
  obtain ⟨c1, hc1, _, hceq, hkeep⟩ := mem_select_structure hc
  rw [methodDKeeps, if_pos hbad] at hkeep
  have hmethod : c.liquidity_method = "listings_fallback" := eq_of_beq hkeep
  obtain ⟨c0, _, rfl⟩ := List.mem_map.mp hc1
  have hm1 : c.liquidity_method = (calculate_liquidity_smart c0.nm_listings c0.lp_listings
      c0.mp_listings c0.hp_listings c0.dmg_listings (db.volumeWindow7 c0.card_id)).2 := by
    rw [hceq]
    exact rfl
  rcases smart_method_cases c0.nm_listings c0.lp_listings c0.mp_listings c0.hp_listings
      c0.dmg_listings (db.volumeWindow7 c0.card_id) with h | h
  · rw [h] at hm1
    rw [hm1] at hmethod
    exact absurd hmethod (by decide)
  · rw [h] at hm1
    rw [hm1] at hmethod
    exact absurd hmethod (by decide)

/-! Concrete evaluations of the pipeline steps. -/

theorem smart_full_eval :
    calculate_liquidity_smart 50 0 0 0 0 (List.replicate 7 activeRow) = (1, "combined") := by
  norm_num [calculate_liquidity_smart, weightedVolume, weightedListings, CONDITION_WEIGHTS,
    LIQUIDITY_CAP, VOLUME_CAP, W_VOL, W_LIST, W_CONS, List.replicate, List.filter,
    min_def, round4, roundHalfEven, activeRow]

theorem smart_light_eval :
    calculate_liquidity_smart 0 0 0 0 0 (List.replicate 7 lightRow) = (1/4, "combined") := by
  norm_num [calculate_liquidity_smart, weightedVolume, weightedListings, CONDITION_WEIGHTS,
    LIQUIDITY_CAP, VOLUME_CAP, W_VOL, W_LIST, W_CONS, List.replicate, List.filter,
    min_def, round4, roundHalfEven, lightRow]

theorem avg30_liquidDb (s : String) : get_avg_volume_30d liquidDb s = 1 := by
  norm_num [get_avg_volume_30d, liquidDb, weightedVolume, CONDITION_WEIGHTS,
    List.replicate, List.filter]

theorem avg30_lowVolumeDb (s : String) : get_avg_volume_30d lowVolumeDb s = 1 := by
  norm_num [get_avg_volume_30d, lowVolumeDb, weightedVolume, CONDITION_WEIGHTS,
    List.replicate, List.filter]

theorem scoreCard_liquid_tieA :
    scoreCard liquidDb tieCardA =
      { card_id := "a", rarity := "Rare", price := 10, liquidity_score := 1,
        liquidity_method := "combined", ranking_score := 10, nm_listings := 50 } := by
  simp only [scoreCard, tieCardA, liquidDb, smart_full_eval, calculate_ranking_score]
  norm_num

theorem scoreCard_liquid_tieB :
    scoreCard liquidDb tieCardB =
      { card_id := "b", rarity := "Rare", price := 10, liquidity_score := 1,
        liquidity_method := "combined", ranking_score := 10, nm_listings := 50 } := by
  simp only [scoreCard, tieCardB, liquidDb, smart_full_eval, calculate_ranking_score]
  norm_num

theorem scoreCard_liquid_fresh :
    scoreCard liquidDb fresh_card =
      { card_id := "fresh", rarity := "Rare", price := 10, liquidity_score := 1,
        liquidity_method := "combined", ranking_score := 10, nm_listings := 50,
        release_date := 20000 } := by
  simp only [scoreCard, fresh_card, liquidDb, smart_full_eval, calculate_ranking_score]
  norm_num

theorem scoreCard_low_eval :
    scoreCard lowVolumeDb lowLiquidityCard =
      { card_id := "low", rarity := "Rare", price := 10, liquidity_score := 1/4,
        liquidity_method := "combined", ranking_score := 5/2 } := by
  simp only [scoreCard, lowLiquidityCard, lowVolumeDb, smart_light_eval, calculate_ranking_score]
  norm_num

theorem volumeEligible_tie_eval :
    volumeEligible liquidDb [tieCardB, tieCardA] RARE_100_config = [scoredTieB, scoredTieA] := by
  rw [volumeEligible, liquidityEligible, List.map_cons, List.map_cons, List.map_nil,
    scoreCard_liquid_tieA, scoreCard_liquid_tieB]
  norm_num [liquidityThreshold, RARE_100_config, List.filter, methodDKeeps, avg30_liquidDb,
    MIN_AVG_VOLUME_30D, scoredTieA, scoredTieB]

theorem rankedCards_tie_eval :
    rankedCards liquidDb [tieCardB, tieCardA] RARE_100_config = [scoredTieB, scoredTieA] := by
  rw [rankedCards, volumeEligible_tie_eval]
  norm_num [List.insertionSort, List.orderedInsert, rankGe, scoredTieA, scoredTieB]

theorem select_tie_eval :
    select_constituents liquidDb [tieCardB, tieCardA] RARE_100_config
      = [scoredTieB, scoredTieA] := by
  have hs : RARE_100_config.size = some 100 := rfl
  simp only [select_constituents, hs, rankedCards_tie_eval, List.take]

theorem volumeEligible_tieA_eval :
    volumeEligible liquidDb [tieCardA] RARE_100_config = [scoredTieA] := by
  rw [volumeEligible, liquidityEligible, List.map_cons, List.map_nil, scoreCard_liquid_tieA]
  norm_num [liquidityThreshold, RARE_100_config, List.filter, methodDKeeps, avg30_liquidDb,
    MIN_AVG_VOLUME_30D, scoredTieA]

theorem select_tieA_eval :
    select_constituents liquidDb [tieCardA] RARE_100_config = [scoredTieA] := by
  have hs : RARE_100_config.size = some 100 := rfl
  simp only [select_constituents, hs, rankedCards, volumeEligible_tieA_eval,
    List.insertionSort, List.orderedInsert, List.take]

theorem select_low_eval :
    select_constituents lowVolumeDb [lowLiquidityCard] RARE_100_config = [] := by
  have hs : RARE_100_config.size = some 100 := rfl
  have hvol : volumeEligible lowVolumeDb [lowLiquidityCard] RARE_100_config = [] := by
    rw [volumeEligible, liquidityEligible, List.map_cons, List.map_nil, scoreCard_low_eval]
    norm_num [liquidityThreshold, RARE_100_config, List.filter]
  simp only [select_constituents, hs, rankedCards, hvol, List.insertionSort, List.take]

theorem selection_pipeline_fresh_eval :
    selection_pipeline liquidDb [fresh_card] RARE_100_config =
      [{ card_id := "fresh", rarity := "Rare", price := 10, liquidity_score := 1,
          liquidity_method := "combined", ranking_score := 10, avg_volume_30d := 1,
          nm_listings := 50, release_date := 20000 }] := by
  rw [selection_pipeline]
  have h1 : filter_rare_cards [fresh_card] = [fresh_card] := by
    norm_num [filter_rare_cards, RARE_RARITIES, fresh_card, List.filter]
  have h2 : filter_outliers [fresh_card] = [fresh_card] := by
    norm_num [filter_outliers, OUTLIER_MIN_PRICE, OUTLIER_MAX_PRICE, fresh_card, List.filter]
  rw [h1, h2]
  have hvol : volumeEligible liquidDb [fresh_card] RARE_100_config =
      [{ card_id := "fresh", rarity := "Rare", price := 10, liquidity_score := 1,
          liquidity_method := "combined", ranking_score := 10, avg_volume_30d := 1,
          nm_listings := 50, release_date := 20000 }] := by
    rw [volumeEligible, liquidityEligible, List.map_cons, List.map_nil, scoreCard_liquid_fresh]
    norm_num [liquidityThreshold, RARE_100_config, List.filter, methodDKeeps, avg30_liquidDb,
      MIN_AVG_VOLUME_30D]
  have hs : RARE_100_config.size = some 100 := rfl
  simp only [select_constituents, hs, rankedCards, hvol, List.insertionSort,
    List.orderedInsert, List.take]

/-- C2 (code bug): `INDEX_CONFIG` sets `maturity_days = 30`, but neither the
pipeline in `main` nor `select_constituents` reads `release_date`: a card
released on the run date itself, well inside the 30-day maturity window, is
selected. -/
theorem select_constituents_ignores_maturity :
    as_of_day - (RARE_100_config.maturity_days : ℤ) < fresh_card.release_date ∧
    (selection_pipeline liquidDb [fresh_card] RARE_100_config).map CardRow.card_id
      = ["fresh"] := by
  constructor
  · norm_num [as_of_day, RARE_100_config, fresh_card]
  · rw [selection_pipeline_fresh_eval]
    rfl

/-- C5 (counterexample): two candidate cards with equal ranking scores whose
item ids are `"b"` and `"a"`; presented in the order `[b, a]`, the selection
returns them in the order `["b", "a"]`, not in ascending item-id order
`["a", "b"]` as the claim states. -/
theorem sort_ties_not_by_item_id :
    scoredTieB.ranking_score = scoredTieA.ranking_score ∧
    scoredTieB.card_id = "b" ∧ scoredTieA.card_id = "a" ∧
    (select_constituents liquidDb [tieCardB, tieCardA] RARE_100_config).map CardRow.card_id
      = ["b", "a"] := by
  refine ⟨rfl, rfl, rfl, ?_⟩
  rw [select_tie_eval]
  rfl

/-- C5 (amended): the ranking step sorts the surviving cards in descending
order of ranking score, and two cards with equal ranking scores keep their
relative order from the filtered candidate list (Python's sort is stable);
no item-id tie-break is applied, so the order of tied items depends on the
input order. -/
theorem rankedCards_sorted_stable (db : MarketDb) (cards : List CardRow) (cfg : IndexCfg)
    (a b : CardRow) (hsub : [a, b].Sublist (volumeEligible db cards cfg))
    (htie : a.ranking_score = b.ranking_score) :
    (rankedCards db cards cfg).Sorted rankGe ∧
      [a, b].Sublist (rankedCards db cards cfg) := by
  constructor
  · exact List.sorted_insertionSort rankGe _
  · exact List.pair_sublist_insertionSort (le_of_eq htie.symm) hsub

/-- C5 witness: stability at the concrete tied pair: both tied cards survive
the filters in input order, and the sorted list keeps `b` before `a`. -/
theorem rankedCards_sorted_stable_witness :
    [scoredTieB, scoredTieA].Sublist (volumeEligible liquidDb [tieCardB, tieCardA]
      RARE_100_config) ∧
    scoredTieB.ranking_score = scoredTieA.ranking_score ∧
    (rankedCards liquidDb [tieCardB, tieCardA] RARE_100_config).Sorted rankGe ∧
    [scoredTieB, scoredTieA].Sublist (rankedCards liquidDb [tieCardB, tieCardA]
      RARE_100_config) := by
  have hsub : [scoredTieB, scoredTieA].Sublist
      (volumeEligible liquidDb [tieCardB, tieCardA] RARE_100_config) := by
    rw [volumeEligible_tie_eval]
  have h := rankedCards_sorted_stable liquidDb [tieCardB, tieCardA] RARE_100_config
    scoredTieB scoredTieA hsub rfl
  exact ⟨hsub, rfl, h.1, h.2⟩

/-- C6 (counterexample): `RARE_100` defines no explicit liquidity threshold,
yet a card with confirmed trading on all seven window days (method
`combined`, smart score 1/4) is dropped by the selection: the default
numeric cutoff 0.40 applies, contradicting the claim that only
zero-trading `listings_only` items are dropped. -/
theorem default_threshold_drops_combined_card :
    RARE_100_config.liquidity_threshold_entry = none ∧
    (calculate_liquidity_smart 0 0 0 0 0 (List.replicate 7 lightRow)).2 = "combined" ∧
    (calculate_liquidity_smart 0 0 0 0 0 (List.replicate 7 lightRow)).2 ≠ "listings_only" ∧
    select_constituents lowVolumeDb [lowLiquidityCard] RARE_100_config = [] := by
  refine ⟨rfl, ?_, ?_, select_low_eval⟩ <;>
    simp [calculate_liquidity_smart, List.replicate]

/-- C6 (amended): for an index whose configuration defines no explicit
liquidity threshold, the liquidity filter applies the default numeric
threshold 0.40: the cards surviving that step are exactly the scored cards
with `liquidity_score ≥ 0.40` (no method- or trading-based special case),
and every selected constituent has `liquidity_score ≥ 0.40`. -/
theorem liquidity_filter_default_threshold (cfg : IndexCfg)
    (h : cfg.liquidity_threshold_entry = none) (db : MarketDb) (cards : List CardRow) :
    liquidityEligible db cards cfg =
      (cards.map (scoreCard db)).filter (fun c => decide ((2/5 : ℚ) ≤ c.liquidity_score)) ∧
    ∀ c ∈ select_constituents db cards cfg, (2/5 : ℚ) ≤ c.liquidity_score := by
  have hth : liquidityThreshold cfg = 2/5 := by rw [liquidityThreshold, h]; rfl
  constructor
  · rw [liquidityEligible, hth]
  · intro c hc
    obtain ⟨c1, _, hle, hceq, _⟩ := mem_select_structure hc
    rw [hth] at hle
    have : c.liquidity_score = c1.liquidity_score := by rw [hceq]
    rw [this]
    exact hle

/-- C6 witness: the amended statement at the concrete thin-profile card under
the `RARE_100` configuration. -/
theorem liquidity_filter_default_threshold_witness :
    RARE_100_config.liquidity_threshold_entry = none ∧
    liquidityEligible lowVolumeDb [lowLiquidityCard] RARE_100_config =
      ([lowLiquidityCard].map (scoreCard lowVolumeDb)).filter
        (fun c => decide ((2/5 : ℚ) ≤ c.liquidity_score)) :=
  ⟨rfl,
    (liquidity_filter_default_threshold RARE_100_config rfl lowVolumeDb [lowLiquidityCard]).1⟩

/-- C9 witness: a concrete selected constituent, whose stored 30-day average
volume 1 is not in the excluded band `(0, 0.5)`. -/
theorem methodD_low_volume_excluded_witness :
    scoredTieA ∈ select_constituents liquidDb [tieCardA] RARE_100_config ∧
    ¬(0 < scoredTieA.avg_volume_30d ∧ scoredTieA.avg_volume_30d < MIN_AVG_VOLUME_30D) := by
  have hmem : scoredTieA ∈ select_constituents liquidDb [tieCardA] RARE_100_config := by
    rw [select_tieA_eval]
    exact List.mem_singleton_self _
  exact ⟨hmem,
    methodD_low_volume_excluded.2 liquidDb [tieCardA] RARE_100_config scoredTieA hmem⟩
